import Mathlib

/-!
Verification of the quiz runner in `app.py`: schema validation
(`validate_quiz_data`), per-question-type grading (`check_question` and its
helpers), and the session state machine driven by `main` (check / next /
restart / back-to-selection / start, over Streamlit's `session_state`).

Machine integers of the source are modelled as `Nat`/`Int`; Python
exceptions as `Except`; the mutable `st.session_state` as an explicit
`SessionState` record threaded through a step function.
-/

set_option maxHeartbeats 1000000

namespace QuizApp

/-- A value captured from one of the input widgets of `render_question`:
`noneVal` models Python `None` (a radio with `index=None` untouched),
`str` a chosen radio label or typed text, `strs` the multiselect list.
The widget layer guarantees the shape matches the question type. -/
inductive Submission where
  | noneVal : Submission
  | str : String → Submission
  | strs : List String → Submission
deriving DecidableEq

/-- Type-specific payload of a question, one case per value of the
source's `q["type"]` tag. -/
inductive QBody where
  | single_choice (choices : List String) (answer : Nat)
  | multi_select (choices : List String) (answer : List Nat)
  | true_false (answer : Bool)
  | short_answer (answer_text : List String)
deriving DecidableEq

/-- A validated question: common fields `id`/`prompt`/`explanation` plus
the type-specific payload. -/
structure Question where
  id : String
  prompt : String
  explanation : Option String
  body : QBody
deriving DecidableEq

/-- One entry of `st.session_state.attempts`, as appended by
`record_attempt` in the source. -/
structure Attempt where
  id : String
  prompt : String
  qtype : String
  user_answer : String
  correct_answer : String
  is_correct : Bool
  explanation : String
deriving DecidableEq

/-- The session keys of `init_state` in the source (the unused `order`
key is dropped); widget values keyed by their `r_`/`m_`/`t_`/`s_` keys
live in `widgets`. -/
@[ext]
structure SessionState where
  quiz_path : Option String
  idx : Nat
  score : Nat
  attempts : List Attempt
  graded_current : Bool
  allow_next : Bool
  student_name : String
  widgets : List (String × Submission)
deriving DecidableEq

/-- Python `list.index`: index of the first occurrence, `none` when the
element is absent (where the source would raise `ValueError`). -/
def pyIndex (xs : List String) (x : String) : Option Nat :=
  match xs with
  | [] => none
  | y :: ys => if y = x then some 0 else (pyIndex ys x).map (fun n => n + 1)

/-- The set comprehension `{choices.index(x) for x in user_value}` of
`check_question`, as the list of first-occurrence indices; `none` when
any lookup would raise. -/
def pyIndexes (cs : List String) (xs : List String) : Option (List Nat) :=
  match xs with
  | [] => some []
  | x :: rest =>
    match pyIndex cs x with
    | some i => (pyIndexes cs rest).map (fun is => i :: is)
    | none => none

/-- Python set equality `chosen == set(answer)` on the underlying
index collections: mutual membership. -/
def pySetEq (a b : List Nat) : Bool :=
  a.all (fun x => b.contains x) && b.all (fun x => a.contains x)

/-- Python `s.split()` over a character list: the maximal non-empty runs
of non-whitespace characters, in order. -/
def pyWords (l : List Char) : List (List Char) :=
  (l.foldr (fun c acc =>
    if c.isWhitespace then [] :: acc
    else
      match acc with
      | [] => [[c]]
      | w :: ws => (c :: w) :: ws) []).filter (fun w => !w.isEmpty)

/-- Python `sep.join(xs)`. -/
def pyJoin (sep : String) : List String → String
  | [] => ""
  | [x] => x
  | x :: y :: ys => x ++ sep ++ pyJoin sep (y :: ys)

/-- `normalize` of the source: lowercase, then `" ".join(s.split())` —
split on whitespace runs, re-join with single spaces (so leading,
trailing and repeated whitespace is squeezed away). -/
def normalize (s : String) : String :=
  pyJoin " " ((pyWords (s.data.map Char.toLower)).map (fun w => String.mk w))

/-- `user_value_to_text` of the source: render the submitted value for
the attempt log; empty string for absent submissions. -/
def user_value_to_text (q : Question) (v : Submission) : String :=
  match q.body with
  | .single_choice _ _ =>
    match v with
    | .noneVal => ""
    | .str s => s
    | .strs _ => ""
  | .multi_select _ _ =>
    match v with
    | .strs [] => ""
    | .strs xs => pyJoin ", " xs
    | _ => ""
  | .true_false _ =>
    match v with
    | .noneVal => ""
    | .str s => s
    | .strs _ => ""
  | .short_answer _ =>
    match v with
    | .noneVal => ""
    | .str s => s
    | .strs _ => ""

/-- `correct_answer_text` of the source. Out-of-range indices (which the
validator rules out) render as the empty string where Python would raise. -/
def correct_answer_text (q : Question) : String :=
  match q.body with
  | .single_choice cs a => cs.getD a ""
  | .multi_select cs ans => pyJoin ", " (ans.map (fun i => cs.getD i ""))
  | .true_false b => if b then "True" else "False"
  | .short_answer ats => pyJoin ", " ats

/-- `check_question` of the source: `.ok none` is the Ungraded outcome
(absent/empty submission), `.ok (some b)` a graded verdict, `.error ()`
the `ValueError`/`AttributeError` paths the widget layer never reaches
(e.g. `choices.index` on a string not among `choices`). -/
def check_question (q : Question) (v : Submission) : Except Unit (Option Bool) :=
  match q.body with
  | .single_choice cs a =>
    match v with
    | .noneVal => .ok none
    | .str uv =>
      match pyIndex cs uv with
      | some i => .ok (some (i == a))
      | none => .error ()
    | .strs _ => .error ()
  | .multi_select cs ans =>
    match v with
    | .noneVal => .ok none
    | .str s => if s = "" then .ok none else .error ()
    | .strs [] => .ok none
    | .strs xs =>
      match pyIndexes cs xs with
      | some is => .ok (some (pySetEq is ans))
      | none => .error ()
  | .true_false b =>
    match v with
    | .noneVal => .ok none
    | .str uv => .ok (some ((uv == "True") == b))
    | .strs _ => .ok (some ((false : Bool) == b))
  | .short_answer ats =>
    match v with
    | .noneVal => .ok none
    | .str s =>
      if s = "" then .ok none
      else .ok (some ((ats.map normalize).contains (normalize s)))
    | .strs xs => if xs = [] then .ok none else .error ()

/-- The `st.session_state` key of the question's input widget, as chosen
by `render_question`. -/
def widgetKey (q : Question) : String :=
  match q.body with
  | .single_choice _ _ => "r_" ++ q.id
  | .multi_select _ _ => "m_" ++ q.id
  | .true_false _ => "t_" ++ q.id
  | .short_answer _ => "s_" ++ q.id

/-- The value a fresh (untouched) widget reports: radios with
`index=None` report `None`, a multiselect `[]`, a text input `""`. -/
def widgetDefault (q : Question) : Submission :=
  match q.body with
  | .single_choice _ _ => .noneVal
  | .multi_select _ _ => .strs []
  | .true_false _ => .noneVal
  | .short_answer _ => .str ""

/-- What `render_question` returns for question `q` given the stored
widget values. -/
def widgetValue (q : Question) (w : List (String × Submission)) : Submission :=
  match List.lookup (widgetKey q) w with
  | some v => v
  | none => widgetDefault q

/-- Python `s.startswith(pre)`, over the character lists. -/
def pyStartsWith (s pre : String) : Bool :=
  pre.data.isPrefixOf s.data

/-- The `k.startswith(("r_", "m_", "t_", "s_"))` test of `reset_run`. -/
def isInputKey (k : String) : Bool :=
  pyStartsWith k "r_" || pyStartsWith k "m_" || pyStartsWith k "t_" || pyStartsWith k "s_"

/-- `reset_run` of the source: zero the run counters and delete every
per-question widget value. -/
def reset_run (s : SessionState) : SessionState :=
  { s with
    idx := 0
    score := 0
    attempts := []
    graded_current := false
    allow_next := false
    widgets := s.widgets.filter (fun kv => !(isInputKey kv.1)) }

/-- The attempt record appended by `record_attempt`. -/
def mkAttempt (q : Question) (v : Submission) (ok : Bool) : Attempt :=
  { id := q.id
    prompt := q.prompt
    qtype :=
      match q.body with
      | .single_choice _ _ => "single_choice"
      | .multi_select _ _ => "multi_select"
      | .true_false _ => "true_false"
      | .short_answer _ => "short_answer"
    user_answer := user_value_to_text q v
    correct_answer := correct_answer_text q
    is_correct := ok
    explanation := (q.explanation).getD "" }

/-- `record_attempt` of the source: append once, guarded by
`graded_current`. -/
def record_attempt (q : Question) (v : Submission) (ok : Bool) (s : SessionState) : SessionState :=
  if s.graded_current then s
  else { s with attempts := s.attempts ++ [mkAttempt q v ok], graded_current := true }

/-- The Check-button handler of `main` (lines 421-428): grade, and on a
graded verdict record once and enable Next; score is incremented only on
a first-time correct grade. -/
def check_handler (q : Question) (v : Submission) (s : SessionState) : SessionState :=
  match check_question q v with
  | .error _ => s
  | .ok none => s
  | .ok (some graded) =>
    let s1 :=
      if s.graded_current then s
      else record_attempt q v graded (if graded then { s with score := s.score + 1 } else s)
    { s1 with allow_next := true }

/-- The defaults installed by `init_state`. -/
def init_state : SessionState :=
  { quiz_path := none
    idx := 0
    score := 0
    attempts := []
    graded_current := false
    allow_next := false
    student_name := ""
    widgets := [] }

/-- One user interaction, as seen by a rerun of `main`. -/
inductive Op where
  | setName (n : String)
  | setInput (k : String) (v : Submission)
  | start (path : String)
  | check
  | next
  | restart
  | back
deriving DecidableEq

/-- `(k, v)` assignment into the widget store (`st.session_state[key] = v`);
lookup takes the first binding. -/
def setW (k : String) (v : Submission) (w : List (String × Submission)) :
    List (String × Submission) :=
  (k, v) :: w

/-- Placeholder question, only ever read behind the `idx < length`
guard of the question screen. -/
def dfltQuestion : Question :=
  ⟨"", "", none, .true_false false⟩

/-- The part of `main` that runs with a loaded document `qs`. The screen
is determined by `qs.length` and `idx`: the "no questions" notice
(`length = 0`, only Back is live), the question screen
(`idx < length`: widget input, Check, Next), or the results screen
(`idx ≥ length`: Restart, Back). Interactions whose widget is not on the
current screen leave the state unchanged. -/
def activeStep (qs : List Question) (op : Op) (s : SessionState) : SessionState :=
  match op with
  | .setInput k v =>
    if qs.length = 0 then s
    else if s.idx < qs.length then
      if isInputKey k then { s with widgets := setW k v s.widgets } else s
    else s
  | .check =>
    if qs.length = 0 then s
    else if s.idx < qs.length then
      check_handler (qs.getD s.idx dfltQuestion)
        (widgetValue (qs.getD s.idx dfltQuestion) s.widgets) s
    else s
  | .next =>
    if qs.length = 0 then s
    else if s.idx < qs.length then
      if s.allow_next then
        { s with idx := s.idx + 1, graded_current := false, allow_next := false }
      else s
    else s
  | .restart =>
    if qs.length = 0 then s
    else if s.idx < qs.length then s
    else reset_run s
  | .back =>
    if qs.length = 0 then { s with quiz_path := none }
    else if s.idx < qs.length then s
    else { reset_run s with quiz_path := none }
  | _ => s

/-- One full rerun of `main` processing one interaction: on the selection
screen the name box and the Start button are live (a failing load during
Start surfaces the error and clears `quiz_path`); with an active quiz the
document is re-loaded and `activeStep` runs. -/
def step (load : String → Except String (List Question)) (op : Op) (s : SessionState) :
    SessionState :=
  match s.quiz_path with
  | none =>
    match op with
    | .setName n => { s with student_name := n }
    | .start p =>
      let s1 := reset_run { s with quiz_path := some p }
      match load p with
      | .ok _ => s1
      | .error _ => { s1 with quiz_path := none }
    | _ => s
  | some p =>
    match load p with
    | .error _ => { s with quiz_path := none }
    | .ok qs => activeStep qs op s

/-- A whole session: fold the interactions over the initial state. -/
def run (load : String → Except String (List Question)) (ops : List Op) : SessionState :=
  ops.foldl (fun s op => step load op s) init_state

/-- Ghost instrumentation for the at-most-once claim: alongside the
state, the list of question indices at which an attempt was recorded in
the current run (reset whenever `attempts` is). -/
def stepG (load : String → Except String (List Question)) (op : Op)
    (sg : SessionState × List Nat) : SessionState × List Nat :=
  let s' := step load op sg.1
  (s',
    if s'.attempts.length = sg.1.attempts.length + 1 then sg.2 ++ [sg.1.idx]
    else if s'.attempts.length = sg.1.attempts.length then sg.2
    else [])

/-- The indices successfully graded in the current run after `ops`. -/
def gradedIndices (load : String → Except String (List Question)) (ops : List Op) : List Nat :=
  (ops.foldl (fun sg op => stepG load op sg) (init_state, [])).2

/-! ## Raw documents and `validate_quiz_data` -/

/-- An untrusted parsed value, as handed to `validate_quiz_data`. -/
inductive Val where
  | vstr : String → Val
  | vint : Int → Val
  | vbool : Bool → Val
  | vlist : List Val → Val
  | vdict : List (String × Val) → Val

/-- Python `isinstance(v, int)`: true also for `bool`, a subclass of `int`. -/
def Val.isInt : Val → Bool
  | .vint _ => true
  | .vbool _ => true
  | _ => false

/-- The integer a Python int-or-bool stands for (`True` is 1, `False` 0). -/
def Val.asInt : Val → Int
  | .vint n => n
  | .vbool b => if b then 1 else 0
  | _ => 0

/-- Python `isinstance(v, bool)`. -/
def Val.isBool : Val → Bool
  | .vbool _ => true
  | _ => false

/-- Python `isinstance(v, list)`. -/
def Val.isList : Val → Bool
  | .vlist _ => true
  | _ => false

/-- Python `len(v)` for sized values; `none` where `len` would raise
`TypeError`. -/
def pyLen : Val → Option Nat
  | .vstr s => some s.length
  | .vlist xs => some xs.length
  | .vdict kvs => some kvs.length
  | _ => none

/-- Rendering of a value inside an f-string error message; exact only for
the scalar values validation messages actually interpolate. -/
def Val.pyStr : Val → String
  | .vstr s => s
  | .vint n => toString n
  | .vbool b => if b then "True" else "False"
  | .vlist _ => "[...]"
  | .vdict _ => "\x7b...\x7d"

/-- Dict key lookup `q[k]`: `none` for a missing key and for non-dict
values, which never reach the lookups of the type-specific branches
(`qmem`/`qindex` raise on them first). -/
def qget (q : Val) (k : String) : Option Val :=
  match q with
  | .vdict kvs => List.lookup k kvs
  | _ => none

/-- Dict key membership: the form `k in q` takes once `q` is known to be
a dict. -/
def qhas (q : Val) (k : String) : Bool :=
  (qget q k).isSome

/-- A raised Python exception during validation: the deliberate
`ValueError`s of the source, or a `TypeError` from applying `len`/`[]`
to a value of the wrong shape. -/
inductive VErr where
  | valueError : String → VErr
  | typeError : VErr
deriving DecidableEq

/-- The name-and-question-number prefix that every per-question
validation message carries. -/
def qtag (name : String) (i : Nat) : String :=
  name ++ " Q" ++ toString i

/-- The message for a bad multi-select index. -/
def msIdxMsg (name : String) (i : Nat) (idx : Val) : String :=
  qtag name i ++ ": multi-select index " ++ idx.pyStr ++ " out of range."

/-- The `for idx in q["answer"]` loop of the multi_select branch:
non-int, negative, or out-of-range indices fail with `msIdxMsg`
(the comparisons short-circuit before `len` exactly as in the source). -/
def msLoop (name : String) (i : Nat) (c : Val) : List Val → Except VErr Unit
  | [] => .ok ()
  | idx :: rest =>
    if !idx.isInt then .error (.valueError (msIdxMsg name i idx))
    else if idx.asInt < 0 then .error (.valueError (msIdxMsg name i idx))
    else
      match pyLen c with
      | none => .error .typeError
      | some n =>
        if n ≤ idx.asInt then .error (.valueError (msIdxMsg name i idx))
        else msLoop name i c rest

/-- Python `t == "lit"` for an arbitrary value against a string literal:
only a string compares equal. -/
def Val.eqStr : Val → String → Bool
  | .vstr s, t => s = t
  | _, _ => false

/-- Contiguous-sublist test on character lists (Python substring). -/
def charsHasSub (sub : List Char) (l : List Char) : Bool :=
  match l with
  | [] => sub.isEmpty
  | _ :: rest => sub.isPrefixOf l || charsHasSub sub rest

/-- Python `sub in s` on strings: substring containment. -/
def pyStrIn (sub s : String) : Bool :=
  charsHasSub sub.data s.data

/-- Python `k in q` on an arbitrary value: key membership for a dict,
element equality for a list, substring containment for a string, and a
raised `TypeError` for int/bool (`.error`). -/
def qmem (q : Val) (k : String) : Except Unit Bool :=
  match q with
  | .vdict kvs => .ok (qhas (.vdict kvs) k)
  | .vlist xs => .ok (xs.any (fun v => v.eqStr k))
  | .vstr s => .ok (pyStrIn k s)
  | .vint _ => .error ()
  | .vbool _ => .error ()

/-- Python `q[k]` with a string key: dict lookup (`KeyError` → `.error`
for a missing key, unreachable behind the membership test); list and
string indexing with a string key, and int/bool subscription, raise
`TypeError` (`.error`). -/
def qindex (q : Val) (k : String) : Except Unit Val :=
  match q with
  | .vdict _ =>
    match qget q k with
    | some v => .ok v
    | none => .error ()
  | _ => .error ()

/-- The single_choice branch of the validator loop body. -/
def scCheck (name : String) (i : Nat) (q : Val) : Except VErr Unit :=
  match qget q "choices", qget q "answer" with
  | some c, some a =>
    if !a.isInt then
      .error (.valueError (qtag name i ++
        " single_choice needs \x27choices\x27 + integer \x27answer\x27."))
    else if a.asInt < 0 then
      .error (.valueError (qtag name i ++ ": \x27answer\x27 index out of range."))
    else
      match pyLen c with
      | none => .error .typeError
      | some n =>
        if n ≤ a.asInt then
          .error (.valueError (qtag name i ++ ": \x27answer\x27 index out of range."))
        else .ok ()
  | _, _ =>
    .error (.valueError (qtag name i ++
      " single_choice needs \x27choices\x27 + integer \x27answer\x27."))

/-- The multi_select branch of the validator loop body. -/
def msCheck (name : String) (i : Nat) (q : Val) : Except VErr Unit :=
  match qget q "choices", qget q "answer" with
  | some c, some (.vlist ans) => msLoop name i c ans
  | _, _ =>
    .error (.valueError (qtag name i ++
      " multi_select needs \x27choices\x27 + list \x27answer\x27."))

/-- The true_false branch of the validator loop body. -/
def tfCheck (name : String) (i : Nat) (q : Val) : Except VErr Unit :=
  match qget q "answer" with
  | some a =>
    if a.isBool then .ok ()
    else .error (.valueError (qtag name i ++ " true_false needs boolean \x27answer\x27."))
  | none => .error (.valueError (qtag name i ++ " true_false needs boolean \x27answer\x27."))

/-- The short_answer branch of the validator loop body. -/
def saCheck (name : String) (i : Nat) (q : Val) : Except VErr Unit :=
  match qget q "answer_text" with
  | some (.vlist (a :: ats)) => .ok ()
  | _ =>
    .error (.valueError (qtag name i ++
      " short_answer needs non-empty list \x27answer_text\x27."))

/-- Validation of the `i`-th (1-based) question, mirroring the body of
the `for` loop of `validate_quiz_data`: the short-circuited
`"id" not in q or "type" not in q or "prompt" not in q` test (which
raises an untagged `TypeError` on an int/bool element), then
`t = q["type"]` (which raises `TypeError` on a list or string element),
then the `==` chain on the type tag and the type-specific branch. -/
def validateQ (name : String) (i : Nat) (q : Val) : Except VErr Unit :=
  match qmem q "id" with
  | .error _ => .error .typeError
  | .ok false =>
    .error (.valueError (qtag name i ++ ": missing \x27id\x27/\x27type\x27/\x27prompt\x27."))
  | .ok true =>
    match qmem q "type" with
    | .error _ => .error .typeError
    | .ok false =>
      .error (.valueError (qtag name i ++ ": missing \x27id\x27/\x27type\x27/\x27prompt\x27."))
    | .ok true =>
      match qmem q "prompt" with
      | .error _ => .error .typeError
      | .ok false =>
        .error (.valueError (qtag name i ++ ": missing \x27id\x27/\x27type\x27/\x27prompt\x27."))
      | .ok true =>
        match qindex q "type" with
        | .error _ => .error .typeError
        | .ok t =>
          if t.eqStr "single_choice" then scCheck name i q
          else if t.eqStr "multi_select" then msCheck name i q
          else if t.eqStr "true_false" then tfCheck name i q
          else if t.eqStr "short_answer" then saCheck name i q
          else .error (.valueError (qtag name i ++ ": unknown type \x27" ++ t.pyStr ++ "\x27."))

/-- Reformulation of `validateQ` specialised to dict-shaped questions
(plain key tests, no exception paths for the membership and `q["type"]`
steps); `validateQ_on_dict` proves it agrees with `validateQ` there. -/
def validateQDict (name : String) (i : Nat) (q : Val) : Except VErr Unit :=
  if !qhas q "id" || !qhas q "type" || !qhas q "prompt" then
    .error (.valueError (qtag name i ++ ": missing \x27id\x27/\x27type\x27/\x27prompt\x27."))
  else
    match qget q "type" with
    | none => .error .typeError
    | some t =>
      if t.eqStr "single_choice" then scCheck name i q
      else if t.eqStr "multi_select" then msCheck name i q
      else if t.eqStr "true_false" then tfCheck name i q
      else if t.eqStr "short_answer" then saCheck name i q
      else .error (.valueError (qtag name i ++ ": unknown type \x27" ++ t.pyStr ++ "\x27."))

/-- The enumerated loop of `validate_quiz_data`, `i` the 1-based index
of the head of the remaining list: fail-fast on the first bad question. -/
def validateQs (name : String) (i : Nat) : List Val → Except VErr Unit
  | [] => .ok ()
  | q :: rest =>
    match validateQ name i q with
    | .ok () => validateQs name (i + 1) rest
    | .error e => .error e

/-- `validate_quiz_data` of the source: the top-level `questions` field
must be a list, then every question is checked in document order. -/
def validate_quiz_data (data : List (String × Val)) (name : String) : Except VErr Unit :=
  match List.lookup "questions" data with
  | some (.vlist qs) => validateQs name 1 qs
  | _ => .error (.valueError (name ++ ": must contain a \x27questions\x27 list."))

/-- A well-formed index into a sized `choices` value: a Python int
(bool included) in `[0, len(choices))`. -/
def idxOk (c : Val) (idx : Val) : Bool :=
  idx.isInt && decide (0 ≤ idx.asInt) &&
    (match pyLen c with
     | some n => decide (idx.asInt < n)
     | none => false)

/-- The acceptance condition for one question, read off §3 of the design:
common keys present, known type tag, and the type-specific shape/range
constraints (with Python's bool-is-int and lazy `len`). -/
def questionOk (q : Val) : Bool :=
  qhas q "id" && qhas q "type" && qhas q "prompt" &&
    match qget q "type" with
    | none => false
    | some t =>
      if t.eqStr "single_choice" then
        (match qget q "choices", qget q "answer" with
         | some c, some a => idxOk c a
         | _, _ => false)
      else if t.eqStr "multi_select" then
        (match qget q "choices", qget q "answer" with
         | some c, some (.vlist ans) => ans.all (fun idx => idxOk c idx)
         | _, _ => false)
      else if t.eqStr "true_false" then
        (match qget q "answer" with
         | some a => a.isBool
         | none => false)
      else if t.eqStr "short_answer" then
        (match qget q "answer_text" with
         | some (.vlist (a :: ats)) => true
         | _ => false)
      else false

/-- A sample well-formed raw question, used in concrete instantiations. -/
def sampleGoodQ : Val :=
  .vdict [("id", .vstr "q1"), ("type", .vstr "single_choice"), ("prompt", .vstr "p"),
    ("choices", .vlist [.vstr "A", .vstr "B"]), ("answer", .vint 1)]

/-- A sample raw question with an unknown type tag, used in concrete
instantiations. -/
def sampleBadQ : Val :=
  .vdict [("id", .vstr "q2"), ("type", .vstr "weird"), ("prompt", .vstr "p")]

/-- The observable shape of the selection screen: a fresh run state with
no graded work and no leftover per-question widget values. -/
def SelectingProps (s : SessionState) : Prop :=
  s.idx = 0 ∧ s.score = 0 ∧ s.attempts = [] ∧ s.graded_current = false ∧
    s.allow_next = false ∧ s.widgets = []

/-- The session invariant, proved inductive over `stepG`: the ghost list
counts the recorded attempts one-to-one, is strictly increasing (hence
its members are distinct question indices), is bounded by the cursor,
the score counts the correct attempts, every stored widget key is a
per-question input key, the selection screen always shows a fresh run,
an active quiz reference always loads, and a loaded empty quiz freezes
the run state. -/
def MasterInv (load : String → Except String (List Question))
    (sg : SessionState × List Nat) : Prop :=
  sg.2.length = sg.1.attempts.length ∧
  sg.2.Pairwise (· < ·) ∧
  (∀ x ∈ sg.2, x < sg.1.idx + (if sg.1.graded_current then 1 else 0)) ∧
  sg.1.score = (sg.1.attempts.filter (fun a => a.is_correct)).length ∧
  (∀ kv ∈ sg.1.widgets, isInputKey kv.1 = true) ∧
  (sg.1.quiz_path = none → SelectingProps sg.1) ∧
  (∀ p, sg.1.quiz_path = some p → ∃ qs, load p = .ok qs) ∧
  (∀ p qs, sg.1.quiz_path = some p → load p = .ok qs → qs.length = 0 → SelectingProps sg.1)

/-! ## Lemmas about the pure grading helpers -/

theorem pyIndex_isSome_of_mem {cs : List String} {x : String} (h : x ∈ cs) :
    (pyIndex cs x).isSome := by
  induction cs with
  | nil => simp at h
  | cons y ys ih =>
    by_cases hy : y = x
    · simp [pyIndex, hy]
    · have hx : x ∈ ys := by
        rcases List.mem_cons.mp h with h1 | h1
        · exact absurd h1.symm hy
        · exact h1
      simpa [pyIndex, hy, Option.isSome_map] using ih hx

theorem pyIndex_first {cs : List String} {x : String} :
    ∀ {i : Nat}, pyIndex cs x = some i →
      cs[i]? = some x ∧ ∀ j, j < i → cs[j]? ≠ some x := by
  induction cs with
  | nil => intro i h; simp [pyIndex] at h
  | cons y ys ih =>
    intro i h
    by_cases hy : y = x
    · simp only [pyIndex, if_pos hy, Option.some.injEq] at h
      subst h
      refine ⟨by simp [hy], ?_⟩
      intro j hj; omega
    · simp only [pyIndex, if_neg hy, Option.map_eq_some'] at h
      obtain ⟨i2, hi2, rfl⟩ := h
      obtain ⟨h1, h2⟩ := ih hi2
      refine ⟨by simpa using h1, ?_⟩
      intro j hj
      cases j with
      | zero => simp [hy]
      | succ j2 =>
        simpa using h2 j2 (by omega)

theorem pySetEq_iff {a b : List Nat} :
    pySetEq a b = true ↔ ∀ n, (n ∈ a ↔ n ∈ b) := by
  simp only [pySetEq, Bool.and_eq_true, List.all_eq_true, List.contains,
    List.elem_eq_mem, decide_eq_true_eq]
  exact ⟨fun h n => ⟨fun hn => h.1 n hn, fun hn => h.2 n hn⟩,
    fun h => ⟨fun n hn => (h n).mp hn, fun n hn => (h n).mpr hn⟩⟩

theorem pyIndexes_of_mem {cs : List String} :
    ∀ {xs : List String}, (∀ x ∈ xs, x ∈ cs) →
      ∃ is, pyIndexes cs xs = some is ∧
        ∀ n, (n ∈ is ↔ ∃ x ∈ xs, pyIndex cs x = some n) := by
  intro xs
  induction xs with
  | nil => intro _; exact ⟨[], rfl, by simp⟩
  | cons x rest ih =>
    intro h
    have hx : x ∈ cs := h x (List.mem_cons_self x rest)
    obtain ⟨i, hi⟩ := Option.isSome_iff_exists.mp (pyIndex_isSome_of_mem hx)
    obtain ⟨is, his, hmem⟩ := ih (fun y hy => h y (List.mem_cons_of_mem x hy))
    refine ⟨i :: is, by simp [pyIndexes, hi, his], ?_⟩
    intro n
    constructor
    · intro hn
      rcases List.mem_cons.mp hn with rfl | hn2
      · exact ⟨x, List.mem_cons_self x rest, hi⟩
      · obtain ⟨x2, hx2, hpx⟩ := (hmem n).mp hn2
        exact ⟨x2, List.mem_cons_of_mem x hx2, hpx⟩
    · rintro ⟨x2, hx2, hpx⟩
      rcases List.mem_cons.mp hx2 with rfl | hx3
      · rw [hi] at hpx
        have hin : i = n := Option.some.inj hpx
        subst hin
        exact List.mem_cons_self i is
      · exact List.mem_cons_of_mem i ((hmem n).mpr ⟨x2, hx3, hpx⟩)

/-! ## Grading claims -/

/-- Claim C4: for a valid single_choice question an absent submission is
Ungraded, and a submitted choice string is graded correct iff its index
within `choices` equals `answer`. -/
theorem single_choice_grade_iff (qid prompt : String) (expl : Option String)
    (cs : List String) (a : Nat) (v : String)
    (ha : a < cs.length) (hv : v ∈ cs) :
    check_question ⟨qid, prompt, expl, .single_choice cs a⟩ .noneVal = .ok none ∧
    (∃ i, pyIndex cs v = some i ∧
      check_question ⟨qid, prompt, expl, .single_choice cs a⟩ (.str v) = .ok (some (i == a))) ∧
    (check_question ⟨qid, prompt, expl, .single_choice cs a⟩ (.str v) = .ok (some true) ↔
      pyIndex cs v = some a) := by
  obtain ⟨i, hi⟩ := Option.isSome_iff_exists.mp (pyIndex_isSome_of_mem hv)
  have hcq : check_question ⟨qid, prompt, expl, .single_choice cs a⟩ (.str v)
      = .ok (some (i == a)) := by
    simp [check_question, hi]
  refine ⟨rfl, ⟨i, hi, hcq⟩, ?_⟩
  rw [hcq]
  constructor
  · intro h
    simp only [Except.ok.injEq, Option.some.injEq, beq_iff_eq] at h
    exact h ▸ hi
  · intro h
    rw [hi] at h
    have hia : i = a := Option.some.inj h
    simp [hia]

/-- Claim C3: for a short_answer question an absent or empty submission
is Ungraded, and a non-empty one is correct iff its normalized form
equals the normalized form of some accepted answer; normalization is
case- and whitespace-insensitive, so "  Paris  " and "paris" both match
the accepted answer "Paris". -/
theorem short_answer_grade_iff (qid prompt : String) (expl : Option String)
    (ats : List String) (s : String) (hs : s ≠ "") :
    check_question ⟨qid, prompt, expl, .short_answer ats⟩ .noneVal = .ok none ∧
    check_question ⟨qid, prompt, expl, .short_answer ats⟩ (.str "") = .ok none ∧
    (check_question ⟨qid, prompt, expl, .short_answer ats⟩ (.str s) = .ok (some true) ↔
      ∃ a ∈ ats, normalize s = normalize a) ∧
    normalize "Paris" = normalize " paris " ∧
    check_question ⟨qid, prompt, expl, .short_answer ["Paris"]⟩ (.str "  Paris  ")
      = .ok (some true) ∧
    check_question ⟨qid, prompt, expl, .short_answer ["Paris"]⟩ (.str "paris")
      = .ok (some true) := by
  refine ⟨rfl, by simp [check_question], ?_, by decide, by rfl, by rfl⟩
  have hcq : check_question ⟨qid, prompt, expl, .short_answer ats⟩ (.str s)
      = .ok (some ((ats.map normalize).contains (normalize s))) := by
    simp [check_question, hs]
  rw [hcq]
  simp only [Except.ok.injEq, Option.some.injEq, List.contains, List.elem_eq_mem,
    decide_eq_true_eq, List.mem_map]
  constructor
  · rintro ⟨a, ha, he⟩
    exact ⟨a, ha, he.symm⟩
  · rintro ⟨a, ha, he⟩
    exact ⟨a, ha, he.symm⟩

/-- Claim C2: for a valid multi_select question an empty submission is
Ungraded (and leaves the session unchanged), and a non-empty submission
is graded correct iff the set of first-occurrence indices of the chosen
strings equals the `answer` index set exactly; any strict
subset or superset is graded incorrect. -/
theorem multi_select_grade_iff (qid prompt : String) (expl : Option String)
    (cs : List String) (ans : List Nat) (xs : List String) (st : SessionState)
    (hval : ∀ i ∈ ans, i < cs.length)
    (hmem : ∀ x ∈ xs, x ∈ cs) (hne : xs ≠ []) :
    check_question ⟨qid, prompt, expl, .multi_select cs ans⟩ (.strs []) = .ok none ∧
    check_handler ⟨qid, prompt, expl, .multi_select cs ans⟩ (.strs []) st = st ∧
    ∃ is, pyIndexes cs xs = some is ∧
      (∀ n, (n ∈ is ↔ ∃ x ∈ xs, pyIndex cs x = some n)) ∧
      check_question ⟨qid, prompt, expl, .multi_select cs ans⟩ (.strs xs)
        = .ok (some (pySetEq is ans)) ∧
      (check_question ⟨qid, prompt, expl, .multi_select cs ans⟩ (.strs xs) = .ok (some true) ↔
        ∀ n, (n ∈ is ↔ n ∈ ans)) ∧
      (((∃ n ∈ ans, n ∉ is) ∨ (∃ n ∈ is, n ∉ ans)) →
        check_question ⟨qid, prompt, expl, .multi_select cs ans⟩ (.strs xs)
          = .ok (some false)) := by
  obtain ⟨is, his, hchar⟩ := pyIndexes_of_mem hmem
  obtain ⟨x, r, rfl⟩ : ∃ x r, xs = x :: r := by
    cases xs with
    | nil => exact absurd rfl hne
    | cons x r => exact ⟨x, r, rfl⟩
  have hq : check_question ⟨qid, prompt, expl, .multi_select cs ans⟩ (.strs (x :: r))
      = .ok (some (pySetEq is ans)) := by
    simp [check_question, his]
  refine ⟨rfl, rfl, is, his, hchar, hq, ?_, ?_⟩
  · rw [hq]
    constructor
    · intro h
      simp only [Except.ok.injEq, Option.some.injEq] at h
      exact pySetEq_iff.mp h
    · intro h
      rw [pySetEq_iff.mpr h]
  · intro hdisj
    rw [hq]
    have hf : pySetEq is ans = false := by
      rcases Bool.eq_false_or_eq_true (pySetEq is ans) with ht | hf
      · exfalso
        have hall := pySetEq_iff.mp ht
        rcases hdisj with ⟨n, hn, hn2⟩ | ⟨n, hn, hn2⟩
        · exact hn2 ((hall n).mpr hn)
        · exact hn2 ((hall n).mp hn)
      · exact hf
    rw [hf]

/-- Claim C10: grading maps a submitted choice string to the index of its
first occurrence in `choices` (Python `list.index`); hence a
single_choice question whose `answer` is the index of a later duplicate
can never be graded correct, whatever is submitted. -/
theorem single_choice_duplicate_never_correct (qid prompt : String) (expl : Option String)
    (cs : List String) (a j : Nat) (v : Submission)
    (ha : a < cs.length) (hj : j < a) (hdup : cs[j]? = cs[a]?) :
    (∀ x i, pyIndex cs x = some i → cs[i]? = some x ∧ ∀ j2, j2 < i → cs[j2]? ≠ some x) ∧
    check_question ⟨qid, prompt, expl, .single_choice cs a⟩ v ≠ .ok (some true) := by
  refine ⟨fun x i h => pyIndex_first h, ?_⟩
  intro hcontra
  cases v with
  | noneVal => simp [check_question] at hcontra
  | strs l => simp [check_question] at hcontra
  | str uv =>
    cases hpi : pyIndex cs uv with
    | none => simp [check_question, hpi] at hcontra
    | some i =>
      simp only [check_question, hpi, Except.ok.injEq, Option.some.injEq,
        beq_iff_eq] at hcontra
      subst hcontra
      obtain ⟨h1, h2⟩ := pyIndex_first hpi
      exact h2 j hj (hdup.trans h1)

/-- Claim C8: `correct_answer_text` renders single_choice as the choice
at `answer`, multi_select as the choice strings at each stored `answer`
index comma-joined in stored order (not sorted), true_false as
"True"/"False", and short_answer as the comma-joined accepted answers. -/
theorem correct_answer_text_spec (qid prompt : String) (expl : Option String)
    (cs ats : List String) (a : Nat) (ans : List Nat) (b : Bool) (i j : Nat)
    (ha : a < cs.length) (hi : i < cs.length) (hj : j < cs.length) :
    correct_answer_text ⟨qid, prompt, expl, .single_choice cs a⟩ = cs[a] ∧
    correct_answer_text ⟨qid, prompt, expl, .multi_select cs ans⟩ =
      pyJoin ", " (ans.map (fun k => cs.getD k "")) ∧
    correct_answer_text ⟨qid, prompt, expl, .multi_select cs [j, i]⟩ =
      pyJoin ", " [cs[j], cs[i]] ∧
    correct_answer_text ⟨qid, prompt, expl, .true_false b⟩ = (if b then "True" else "False") ∧
    correct_answer_text ⟨qid, prompt, expl, .short_answer ats⟩ = pyJoin ", " ats := by
  refine ⟨?_, rfl, ?_, rfl, rfl⟩
  · simp [correct_answer_text, List.getD_eq_getElem?_getD, List.getElem?_eq_getElem, ha]
  · simp [correct_answer_text, List.getD_eq_getElem?_getD, List.getElem?_eq_getElem, hi, hj]

/-- Witness for C4 at a concrete question. -/
theorem single_choice_grade_iff_witness :
    check_question ⟨"q1", "p", none, .single_choice ["A", "B"] 1⟩ .noneVal = .ok none ∧
    (∃ i, pyIndex ["A", "B"] "A" = some i ∧
      check_question ⟨"q1", "p", none, .single_choice ["A", "B"] 1⟩ (.str "A")
        = .ok (some (i == 1))) ∧
    (check_question ⟨"q1", "p", none, .single_choice ["A", "B"] 1⟩ (.str "A") = .ok (some true) ↔
      pyIndex ["A", "B"] "A" = some 1) :=
  single_choice_grade_iff "q1" "p" none ["A", "B"] 1 "A" (by decide) (by decide)

/-- Witness for C3 at a concrete question. -/
theorem short_answer_grade_iff_witness :
    check_question ⟨"q1", "p", none, .short_answer ["Paris"]⟩ .noneVal = .ok none ∧
    check_question ⟨"q1", "p", none, .short_answer ["Paris"]⟩ (.str "") = .ok none ∧
    (check_question ⟨"q1", "p", none, .short_answer ["Paris"]⟩ (.str "paris") = .ok (some true) ↔
      ∃ a ∈ ["Paris"], normalize "paris" = normalize a) ∧
    normalize "Paris" = normalize " paris " ∧
    check_question ⟨"q1", "p", none, .short_answer ["Paris"]⟩ (.str "  Paris  ")
      = .ok (some true) ∧
    check_question ⟨"q1", "p", none, .short_answer ["Paris"]⟩ (.str "paris")
      = .ok (some true) :=
  short_answer_grade_iff "q1" "p" none ["Paris"] "paris" (by decide)

/-- Witness for C2 at a concrete question and submission. -/
theorem multi_select_grade_iff_witness :
    check_question ⟨"q1", "p", none, .multi_select ["A", "B", "C"] [2, 0]⟩ (.strs [])
      = .ok none ∧
    check_handler ⟨"q1", "p", none, .multi_select ["A", "B", "C"] [2, 0]⟩ (.strs []) init_state
      = init_state ∧
    ∃ is, pyIndexes ["A", "B", "C"] ["C", "A"] = some is ∧
      (∀ n, (n ∈ is ↔ ∃ x ∈ ["C", "A"], pyIndex ["A", "B", "C"] x = some n)) ∧
      check_question ⟨"q1", "p", none, .multi_select ["A", "B", "C"] [2, 0]⟩
        (.strs ["C", "A"]) = .ok (some (pySetEq is [2, 0])) ∧
      (check_question ⟨"q1", "p", none, .multi_select ["A", "B", "C"] [2, 0]⟩
          (.strs ["C", "A"]) = .ok (some true) ↔ ∀ n, (n ∈ is ↔ n ∈ [2, 0])) ∧
      (((∃ n ∈ [2, 0], n ∉ is) ∨ (∃ n ∈ is, n ∉ [2, 0])) →
        check_question ⟨"q1", "p", none, .multi_select ["A", "B", "C"] [2, 0]⟩
          (.strs ["C", "A"]) = .ok (some false)) :=
  multi_select_grade_iff "q1" "p" none ["A", "B", "C"] [2, 0] ["C", "A"] init_state
    (by decide) (by decide) (by decide)

/-- Witness for C10 at a concrete question with duplicated choices. -/
theorem single_choice_duplicate_never_correct_witness :
    (∀ x i, pyIndex ["A", "A"] x = some i →
      (["A", "A"] : List String)[i]? = some x ∧
        ∀ j2, j2 < i → (["A", "A"] : List String)[j2]? ≠ some x) ∧
    check_question ⟨"q1", "p", none, .single_choice ["A", "A"] 1⟩ (.str "A")
      ≠ .ok (some true) :=
  single_choice_duplicate_never_correct "q1" "p" none ["A", "A"] 1 0 (.str "A")
    (by decide) (by decide) (by decide)

/-- Witness for C8 at concrete questions; `answer = [2, 0]` shows the
multi_select rendering preserves stored order rather than sorting. -/
theorem correct_answer_text_spec_witness :
    correct_answer_text ⟨"q", "p", none, .single_choice ["A", "B", "C"] 0⟩
      = ("A" : String) ∧
    correct_answer_text ⟨"q", "p", none, .multi_select ["A", "B", "C"] [2, 0]⟩ =
      pyJoin ", " ([2, 0].map (fun k => (["A", "B", "C"] : List String).getD k "")) ∧
    correct_answer_text ⟨"q", "p", none, .multi_select ["A", "B", "C"] [2, 0]⟩ =
      pyJoin ", " ["C", "A"] ∧
    correct_answer_text ⟨"q", "p", none, .true_false true⟩
      = (if true then "True" else "False") ∧
    correct_answer_text ⟨"q", "p", none, .short_answer ["x", "y"]⟩ = pyJoin ", " ["x", "y"] :=
  correct_answer_text_spec "q" "p" none ["A", "B", "C"] ["x", "y"] 0 [2, 0] true 0 2
    (by decide) (by decide) (by decide)

/-! ## Restart (C7) -/

theorem lookup_filter_input_none {k : String} (hk : isInputKey k = true) :
    ∀ w : List (String × Submission),
      List.lookup k (w.filter (fun kv => !(isInputKey kv.1))) = none := by
  intro w
  induction w with
  | nil => rfl
  | cons kv rest ih =>
    by_cases hkv : isInputKey kv.1
    · simp [List.filter_cons, hkv, ih]
    · have hne : (k == kv.1) = false := by
        apply beq_eq_false_iff_ne.mpr
        intro heq
        rw [← heq] at hkv
        exact hkv hk
      simp [List.filter_cons, hkv, List.lookup, hne, ih]

theorem lookup_filter_input_preserved {k : String} (hk : isInputKey k = false) :
    ∀ w : List (String × Submission),
      List.lookup k (w.filter (fun kv => !(isInputKey kv.1))) = List.lookup k w := by
  intro w
  induction w with
  | nil => rfl
  | cons kv rest ih =>
    by_cases hkv : isInputKey kv.1
    · have hne : (k == kv.1) = false := by
        apply beq_eq_false_iff_ne.mpr
        intro heq
        rw [← heq] at hkv
        rw [hk] at hkv
        exact Bool.false_ne_true hkv
      simp [List.filter_cons, hkv, List.lookup, hne, ih]
    · simp only [List.filter_cons, hkv, Bool.not_false, if_pos]
      by_cases hek : (k == kv.1) = true
      · simp [List.lookup, hek]
      · simp [List.lookup, hek, ih]

/-- Claim C7: restart (`reset_run`) resets exactly the run state —
`score`, `attempts`, `currentIndex`, the graded flag and every captured
per-question input — while the loaded quiz reference, the student name
and non-input session keys are unchanged. -/
theorem reset_run_frame (s : SessionState) (k k2 : String)
    (hk : isInputKey k = true) (hk2 : isInputKey k2 = false) :
    (reset_run s).idx = 0 ∧ (reset_run s).score = 0 ∧ (reset_run s).attempts = [] ∧
    (reset_run s).graded_current = false ∧ (reset_run s).allow_next = false ∧
    List.lookup k (reset_run s).widgets = none ∧
    List.lookup k2 (reset_run s).widgets = List.lookup k2 s.widgets ∧
    (reset_run s).quiz_path = s.quiz_path ∧
    (reset_run s).student_name = s.student_name :=
  ⟨rfl, rfl, rfl, rfl, rfl, lookup_filter_input_none hk s.widgets,
    lookup_filter_input_preserved hk2 s.widgets, rfl, rfl⟩

/-- Witness for C7 at a concrete mid-run state. -/
theorem reset_run_frame_witness :
    (reset_run ⟨some "quiz.json", 2, 1, [], true, true, "Ada",
      [("r_q1", .str "A"), ("name_box", .str "x")]⟩).idx = 0 ∧
    (reset_run ⟨some "quiz.json", 2, 1, [], true, true, "Ada",
      [("r_q1", .str "A"), ("name_box", .str "x")]⟩).score = 0 ∧
    List.lookup "r_q1" (reset_run ⟨some "quiz.json", 2, 1, [], true, true, "Ada",
      [("r_q1", .str "A"), ("name_box", .str "x")]⟩).widgets = none ∧
    List.lookup "name_box" (reset_run ⟨some "quiz.json", 2, 1, [], true, true, "Ada",
      [("r_q1", .str "A"), ("name_box", .str "x")]⟩).widgets
      = List.lookup "name_box"
          [("name_box", Submission.str "x")] ∧
    (reset_run ⟨some "quiz.json", 2, 1, [], true, true, "Ada",
      [("r_q1", .str "A"), ("name_box", .str "x")]⟩).quiz_path = some "quiz.json" ∧
    (reset_run ⟨some "quiz.json", 2, 1, [], true, true, "Ada",
      [("r_q1", .str "A"), ("name_box", .str "x")]⟩).student_name = "Ada" := by
  have h := reset_run_frame
    ⟨some "quiz.json", 2, 1, [], true, true, "Ada",
      [("r_q1", .str "A"), ("name_box", .str "x")]⟩
    "r_q1" "name_box" (by decide) (by decide)
  refine ⟨h.1, h.2.1, h.2.2.2.2.2.1, ?_, h.2.2.2.2.2.2.2.1, h.2.2.2.2.2.2.2.2⟩
  rw [h.2.2.2.2.2.2.1]
  decide

/-! ## Session state machine lemmas -/

theorem check_handler_stuck (q : Question) (v : Submission) (s : SessionState)
    (h : check_question q v = .error () ∨ check_question q v = .ok none) :
    check_handler q v s = s := by
  rcases h with h | h <;> simp [check_handler, h]

theorem check_handler_already (q : Question) (v : Submission) (s : SessionState) (b : Bool)
    (hc : check_question q v = .ok (some b)) (hg : s.graded_current = true) :
    check_handler q v s = { s with allow_next := true } := by
  simp [check_handler, hc, hg]

theorem check_handler_record (q : Question) (v : Submission) (s : SessionState) (b : Bool)
    (hc : check_question q v = .ok (some b)) (hg : s.graded_current = false) :
    check_handler q v s =
      { s with score := s.score + (if b then 1 else 0),
               attempts := s.attempts ++ [mkAttempt q v b],
               graded_current := true,
               allow_next := true } := by
  cases b <;> simp [check_handler, hc, record_attempt, hg]

theorem masterInv_stepG_fix (load : String → Except String (List Question)) (op : Op)
    (s : SessionState) (g : List Nat) (h : MasterInv load (s, g))
    (hfix : step load op s = s) : MasterInv load (stepG load op (s, g)) := by
  have he : stepG load op (s, g) = (s, g) := by
    simp [stepG, hfix]
  rw [he]
  exact h


theorem stepG_inv (load : String → Except String (List Question)) (op : Op)
    (sg : SessionState × List Nat) (h : MasterInv load sg) :
    MasterInv load (stepG load op sg) := by
  obtain ⟨s, g⟩ := sg
  have hlen := h.1
  have hpw := h.2.1
  have hbnd := h.2.2.1
  have hscore := h.2.2.2.1
  have hwid := h.2.2.2.2.1
  have hsel := h.2.2.2.2.2.1
  have hok := h.2.2.2.2.2.2.1
  have hempty := h.2.2.2.2.2.2.2
  dsimp only at hlen hpw hbnd hscore hwid hsel hok hempty
  cases hq : s.quiz_path with
  | none =>
    obtain ⟨hidx0, hsc0, hatt0, hgc0, han0, hw0⟩ := hsel hq
    cases op with
    | setName n =>
      have hstep : step load (.setName n) s = { s with student_name := n } := by
        simp [step, hq]
      have he : stepG load (.setName n) (s, g) = ({ s with student_name := n }, g) := by
        simp [stepG, hstep]
      rw [he]
      exact ⟨hlen, hpw, hbnd, hscore, hwid,
        fun _ => ⟨hidx0, hsc0, hatt0, hgc0, han0, hw0⟩,
        fun p hp => hok p hp, fun p qs hp hl h0 => hempty p qs hp hl h0⟩
    | start p =>
      have hg0 : g = [] := by
        have h9 := hlen
        rw [hatt0] at h9
        simpa using h9
      subst hg0
      cases hl : load p with
      | ok qs =>
        have hstep : step load (.start p) s = reset_run { s with quiz_path := some p } := by
          simp [step, hq, hl]
        have he : stepG load (.start p) (s, []) =
            (reset_run { s with quiz_path := some p }, []) := by
          simp [stepG, hstep, reset_run, hatt0]
        rw [he]
        refine ⟨rfl, List.Pairwise.nil, by simp, rfl, ?_, ?_, ?_, ?_⟩
        · intro kv hkv
          simp only [reset_run, hw0, List.filter_nil] at hkv
          simp at hkv
        · intro hnone
          simp [reset_run] at hnone
        · intro p2 hp2
          simp only [reset_run] at hp2
          have hpp : p = p2 := by simpa using hp2
          exact ⟨qs, hpp ▸ hl⟩
        · intro p2 qs2 hp2 hl2 h02
          exact ⟨rfl, rfl, rfl, rfl, rfl, by simp [reset_run, hw0]⟩
      | error e =>
        have hstep : step load (.start p) s =
            { reset_run { s with quiz_path := some p } with quiz_path := none } := by
          simp [step, hq, hl]
        have he : stepG load (.start p) (s, []) =
            ({ reset_run { s with quiz_path := some p } with quiz_path := none }, []) := by
          simp [stepG, hstep, reset_run, hatt0]
        rw [he]
        refine ⟨rfl, List.Pairwise.nil, by simp, rfl, ?_, ?_, ?_, ?_⟩
        · intro kv hkv
          simp only [reset_run, hw0, List.filter_nil] at hkv
          simp at hkv
        · intro _
          exact ⟨rfl, rfl, rfl, rfl, rfl, by simp [reset_run, hw0]⟩
        · intro p2 hp2
          simp at hp2
        · intro p2 qs2 hp2 hl2 h02
          simp at hp2
    | setInput k v =>
      exact masterInv_stepG_fix load _ s g h (by simp [step, hq])
    | check =>
      exact masterInv_stepG_fix load _ s g h (by simp [step, hq])
    | next =>
      exact masterInv_stepG_fix load _ s g h (by simp [step, hq])
    | restart =>
      exact masterInv_stepG_fix load _ s g h (by simp [step, hq])
    | back =>
      exact masterInv_stepG_fix load _ s g h (by simp [step, hq])
  | some p =>
    obtain ⟨qs, hl⟩ := hok p hq
    by_cases h0 : qs.length = 0
    · obtain ⟨hidx0, hsc0, hatt0, hgc0, han0, hw0⟩ := hempty p qs hq hl h0
      cases op with
      | back =>
        have hstep : step load .back s = { s with quiz_path := none } := by
          simp [step, hq, hl, activeStep, h0]
        have he : stepG load .back (s, g) = ({ s with quiz_path := none }, g) := by
          simp [stepG, hstep]
        rw [he]
        exact ⟨hlen, hpw, hbnd, hscore, hwid,
          fun _ => ⟨hidx0, hsc0, hatt0, hgc0, han0, hw0⟩,
          fun p2 hp2 => by simp at hp2,
          fun p2 qs2 hp2 hl2 h02 => by simp at hp2⟩
      | setName n =>
        exact masterInv_stepG_fix load _ s g h (by simp [step, hq, hl, activeStep, h0])
      | setInput k v =>
        exact masterInv_stepG_fix load _ s g h (by simp [step, hq, hl, activeStep, h0])
      | check =>
        exact masterInv_stepG_fix load _ s g h (by simp [step, hq, hl, activeStep, h0])
      | next =>
        exact masterInv_stepG_fix load _ s g h (by simp [step, hq, hl, activeStep, h0])
      | restart =>
        exact masterInv_stepG_fix load _ s g h (by simp [step, hq, hl, activeStep, h0])
      | start p2 =>
        exact masterInv_stepG_fix load _ s g h (by simp [step, hq, hl, activeStep, h0])
    · by_cases hlt : s.idx < qs.length
      · cases op with
        | setInput k v =>
          by_cases hkk : isInputKey k
          · have hstep : step load (.setInput k v) s =
                { s with widgets := setW k v s.widgets } := by
              simp [step, hq, hl, activeStep, h0, hlt, hkk]
            have he : stepG load (.setInput k v) (s, g) =
                ({ s with widgets := setW k v s.widgets }, g) := by
              simp [stepG, hstep]
            rw [he]
            refine ⟨hlen, hpw, hbnd, hscore, ?_, ?_, fun p2 hp2 => hok p2 hp2, ?_⟩
            · intro kv hkv
              rcases List.mem_cons.mp hkv with heq | hkv2
              · rw [heq]
                exact hkk
              · exact hwid kv hkv2
            · intro hnone
              rw [hq] at hnone
              cases hnone
            · intro p2 qs2 hp2 hl2 h02
              rw [hq] at hp2
              have hpp : p = p2 := by injection hp2
              subst hpp
              rw [hl] at hl2
              have hqq : qs = qs2 := by injection hl2
              subst hqq
              exact absurd h02 h0
          · exact masterInv_stepG_fix load _ s g h
              (by simp [step, hq, hl, activeStep, h0, hlt, hkk])
        | check =>
          have hstep : step load .check s =
              check_handler (qs.getD s.idx dfltQuestion)
                (widgetValue (qs.getD s.idx dfltQuestion) s.widgets) s := by
            simp [step, hq, hl, activeStep, h0, hlt]
          rcases hc : check_question (qs.getD s.idx dfltQuestion)
              (widgetValue (qs.getD s.idx dfltQuestion) s.widgets) with u | ob
          · cases u
            exact masterInv_stepG_fix load _ s g h
              (hstep.trans (check_handler_stuck _ _ _ (Or.inl hc)))
          · cases ob with
            | none =>
              exact masterInv_stepG_fix load _ s g h
                (hstep.trans (check_handler_stuck _ _ _ (Or.inr hc)))
            | some b =>
              by_cases hgc : s.graded_current
              · have hstep2 : step load .check s = { s with allow_next := true } :=
                  hstep.trans (check_handler_already _ _ _ b hc hgc)
                have he : stepG load .check (s, g) = ({ s with allow_next := true }, g) := by
                  simp [stepG, hstep2]
                rw [he]
                refine ⟨hlen, hpw, hbnd, hscore, hwid, ?_, fun p2 hp2 => hok p2 hp2, ?_⟩
                · intro hnone
                  rw [hq] at hnone
                  cases hnone
                · intro p2 qs2 hp2 hl2 h02
                  rw [hq] at hp2
                  have hpp : p = p2 := by injection hp2
                  subst hpp
                  rw [hl] at hl2
                  have hqq : qs = qs2 := by injection hl2
                  subst hqq
                  exact absurd h02 h0
              · have hgcf : s.graded_current = false := by
                  simpa using hgc
                have hstep2 : step load .check s =
                    { s with score := s.score + (if b then 1 else 0),
                             attempts := s.attempts ++
                               [mkAttempt (qs.getD s.idx dfltQuestion)
                                 (widgetValue (qs.getD s.idx dfltQuestion) s.widgets) b],
                             graded_current := true,
                             allow_next := true } :=
                  hstep.trans (check_handler_record _ _ _ b hc hgcf)
                have he : stepG load .check (s, g) =
                    ({ s with score := s.score + (if b then 1 else 0),
                              attempts := s.attempts ++
                                [mkAttempt (qs.getD s.idx dfltQuestion)
                                  (widgetValue (qs.getD s.idx dfltQuestion) s.widgets) b],
                              graded_current := true,
                              allow_next := true }, g ++ [s.idx]) := by
                  simp [stepG, hstep2]
                rw [he]
                have hbnd2 : ∀ x ∈ g, x < s.idx := by
                  intro x hx
                  have h9 := hbnd x hx
                  rw [hgcf] at h9
                  simpa using h9
                refine ⟨?_, ?_, ?_, ?_, hwid, ?_, fun p2 hp2 => hok p2 hp2, ?_⟩
                · simp [hlen]
                · rw [List.pairwise_append]
                  refine ⟨hpw, List.pairwise_singleton _ _, ?_⟩
                  intro x hx y hy
                  rw [List.mem_singleton.mp hy]
                  exact hbnd2 x hx
                · intro x hx
                  rcases List.mem_append.mp hx with hx2 | hx2
                  · have h9 := hbnd2 x hx2
                    simp only [if_pos rfl]
                    omega
                  · rw [List.mem_singleton.mp hx2]
                    simp
                · rw [List.filter_append, List.length_append, hscore]
                  cases b <;> simp [mkAttempt]
                · intro hnone
                  rw [hq] at hnone
                  cases hnone
                · intro p2 qs2 hp2 hl2 h02
                  rw [hq] at hp2
                  have hpp : p = p2 := by injection hp2
                  subst hpp
                  rw [hl] at hl2
                  have hqq : qs = qs2 := by injection hl2
                  subst hqq
                  exact absurd h02 h0
        | next =>
          by_cases han : s.allow_next = true
          · have hstep : step load .next s =
                { s with idx := s.idx + 1, graded_current := false, allow_next := false } := by
              simp [step, hq, hl, activeStep, h0, hlt, han]
            have he : stepG load .next (s, g) =
                ({ s with idx := s.idx + 1, graded_current := false, allow_next := false },
                  g) := by
              simp [stepG, hstep]
            rw [he]
            refine ⟨hlen, hpw, ?_, hscore, hwid, ?_, fun p2 hp2 => hok p2 hp2, ?_⟩
            · intro x hx
              have h9 := hbnd x hx
              rcases Bool.eq_false_or_eq_true s.graded_current with hb | hb <;>
                rw [hb] at h9 <;> simp at h9 ⊢ <;> omega
            · intro hnone
              rw [hq] at hnone
              cases hnone
            · intro p2 qs2 hp2 hl2 h02
              rw [hq] at hp2
              have hpp : p = p2 := by injection hp2
              subst hpp
              rw [hl] at hl2
              have hqq : qs = qs2 := by injection hl2
              subst hqq
              exact absurd h02 h0
          · exact masterInv_stepG_fix load _ s g h
              (by simp [step, hq, hl, activeStep, h0, hlt, han])
        | setName n =>
          exact masterInv_stepG_fix load _ s g h (by simp [step, hq, hl, activeStep, h0, hlt])
        | start p2 =>
          exact masterInv_stepG_fix load _ s g h (by simp [step, hq, hl, activeStep, h0, hlt])
        | restart =>
          exact masterInv_stepG_fix load _ s g h (by simp [step, hq, hl, activeStep, h0, hlt])
        | back =>
          exact masterInv_stepG_fix load _ s g h (by simp [step, hq, hl, activeStep, h0, hlt])
      · cases op with
        | restart =>
          have hstep : step load .restart s = reset_run s := by
            simp [step, hq, hl, activeStep, h0, hlt]
          have he : stepG load .restart (s, g) = (reset_run s, []) := by
            simp only [stepG, hstep]
            rcases Nat.eq_zero_or_pos s.attempts.length with hz | hz
            · have hgn : g = [] := by
                have h9 := hlen
                rw [hz] at h9
                simpa using h9
              simp [reset_run, hz, hgn]
            · simp only [reset_run]
              rw [if_neg (by simp <;> omega), if_neg (by simp <;> omega)]
          rw [he]
          refine ⟨rfl, List.Pairwise.nil, by simp, rfl, ?_, ?_, ?_, ?_⟩
          · intro kv hkv
            simp only [reset_run] at hkv
            exact hwid kv (List.mem_filter.mp hkv).1
          · intro hnone
            simp only [reset_run] at hnone
            rw [hq] at hnone
            cases hnone
          · intro p2 hp2
            simp only [reset_run] at hp2
            rw [hq] at hp2
            have hpp : p = p2 := by injection hp2
            exact ⟨qs, hpp ▸ hl⟩
          · intro p2 qs2 hp2 hl2 h02
            simp only [reset_run] at hp2
            rw [hq] at hp2
            have hpp : p = p2 := by injection hp2
            subst hpp
            rw [hl] at hl2
            have hqq : qs = qs2 := by injection hl2
            subst hqq
            exact absurd h02 h0
        | back =>
          have hstep : step load .back s = { reset_run s with quiz_path := none } := by
            simp [step, hq, hl, activeStep, h0, hlt]
          have hwnil : s.widgets.filter (fun kv => !(isInputKey kv.1)) = [] := by
            rw [List.filter_eq_nil_iff]
            intro kv hkv
            simp [hwid kv hkv]
          have he : stepG load .back (s, g) =
              ({ reset_run s with quiz_path := none }, []) := by
            simp only [stepG, hstep]
            rcases Nat.eq_zero_or_pos s.attempts.length with hz | hz
            · have hgn : g = [] := by
                have h9 := hlen
                rw [hz] at h9
                simpa using h9
              simp [reset_run, hz, hgn]
            · simp only [reset_run]
              rw [if_neg (by simp <;> omega), if_neg (by simp <;> omega)]
          rw [he]
          refine ⟨rfl, List.Pairwise.nil, by simp, rfl, ?_, ?_, ?_, ?_⟩
          · intro kv hkv
            simp only [reset_run] at hkv
            exact hwid kv (List.mem_filter.mp hkv).1
          · intro _
            exact ⟨rfl, rfl, rfl, rfl, rfl, by simp [reset_run, hwnil]⟩
          · intro p2 hp2
            simp at hp2
          · intro p2 qs2 hp2 hl2 h02
            simp at hp2
        | setName n =>
          exact masterInv_stepG_fix load _ s g h (by simp [step, hq, hl, activeStep, h0, hlt])
        | setInput k v =>
          exact masterInv_stepG_fix load _ s g h (by simp [step, hq, hl, activeStep, h0, hlt])
        | check =>
          exact masterInv_stepG_fix load _ s g h (by simp [step, hq, hl, activeStep, h0, hlt])
        | next =>
          exact masterInv_stepG_fix load _ s g h (by simp [step, hq, hl, activeStep, h0, hlt])
        | start p2 =>
          exact masterInv_stepG_fix load _ s g h (by simp [step, hq, hl, activeStep, h0, hlt])

theorem masterInv_init (load : String → Except String (List Question)) :
    MasterInv load (init_state, []) := by
  refine ⟨rfl, List.Pairwise.nil, by simp, rfl, by simp [init_state], ?_, ?_, ?_⟩
  · intro _
    exact ⟨rfl, rfl, rfl, rfl, rfl, rfl⟩
  · intro p hp
    simp [init_state] at hp
  · intro p qs hp hl h0
    simp [init_state] at hp

theorem masterInv_foldl (load : String → Except String (List Question)) (ops : List Op) :
    ∀ sg, MasterInv load sg →
      MasterInv load (ops.foldl (fun sg op => stepG load op sg) sg) := by
  induction ops with
  | nil => intro sg h; exact h
  | cons op rest ih =>
    intro sg h
    simp only [List.foldl_cons]
    exact ih _ (stepG_inv load op sg h)

theorem foldl_stepG_fst (load : String → Except String (List Question)) (ops : List Op) :
    ∀ sg : SessionState × List Nat,
      (ops.foldl (fun sg op => stepG load op sg) sg).1
        = ops.foldl (fun s op => step load op s) sg.1 := by
  induction ops with
  | nil => intro sg; rfl
  | cons op rest ih =>
    intro sg
    simp only [List.foldl_cons]
    rw [ih]
    rfl

/-- Claim C1: a second (or further) grade of the current question while a
grade is already recorded changes neither `score` nor `attempts`; and
after any sequence of session interactions, `attempts.length` equals the
number of recorded grading events, whose question indices are pairwise
distinct (at most one per visited index). -/
theorem at_most_once_grading (q : Question) (v : Submission) (s : SessionState)
    (h : s.graded_current = true) :
    (check_handler q v s).score = s.score ∧
    (check_handler q v s).attempts = s.attempts ∧
    ∀ load ops, (run load ops).attempts.length = (gradedIndices load ops).length ∧
      (gradedIndices load ops).Nodup := by
  have hsa : (check_handler q v s).score = s.score ∧
      (check_handler q v s).attempts = s.attempts := by
    rcases hc : check_question q v with u | ob
    · simp [check_handler, hc]
    · cases ob with
      | none => simp [check_handler, hc]
      | some b => simp [check_handler, hc, h]
  refine ⟨hsa.1, hsa.2, ?_⟩
  intro load ops
  have hm := masterInv_foldl load ops (init_state, []) (masterInv_init load)
  have hf := foldl_stepG_fst load ops (init_state, [])
  constructor
  · have h1 := hm.1
    rw [hf] at h1
    exact h1.symm
  · exact List.Pairwise.imp (fun hab => Nat.ne_of_lt hab) hm.2.1

/-- Witness for C1 at a concrete already-graded state. -/
theorem at_most_once_grading_witness :
    (check_handler ⟨"q1", "p", none, .true_false true⟩ (.str "True")
      ⟨some "x", 0, 1, [], true, true, "", []⟩).score = 1 ∧
    (check_handler ⟨"q1", "p", none, .true_false true⟩ (.str "True")
      ⟨some "x", 0, 1, [], true, true, "", []⟩).attempts = [] := by
  have h := at_most_once_grading ⟨"q1", "p", none, .true_false true⟩ (.str "True")
    ⟨some "x", 0, 1, [], true, true, "", []⟩ rfl
  exact ⟨h.1, h.2.1⟩

/-- Claim C9: after any sequence of session interactions starting from a
fresh state, `score` equals the number of recorded attempts whose
correctness flag is true (so score never exceeds `attempts.length` and
an incorrect or repeated grade never increments it). -/
theorem score_counts_correct_attempts (load : String → Except String (List Question))
    (ops : List Op) :
    (run load ops).score
      = ((run load ops).attempts.filter (fun a => a.is_correct)).length := by
  have hm := masterInv_foldl load ops (init_state, []) (masterInv_init load)
  have hf := foldl_stepG_fst load ops (init_state, [])
  have h4 := hm.2.2.2.1
  rw [hf] at h4
  exact h4

theorem start_fail_id (load : String → Except String (List Question)) (p e : String)
    (s : SessionState) (hfail : load p = .error e)
    (hq : s.quiz_path = none) (hsp : SelectingProps s) :
    step load (.start p) s = s := by
  obtain ⟨h1, h2, h3, h4, h5, h6⟩ := hsp
  simp only [step, hq, hfail]
  apply SessionState.ext <;> simp [reset_run, h1, h2, h3, h4, h5, h6, hq]

/-- Claim C6: a failing load during the Selecting → Presenting(0)
transition aborts it: from any reachable selection-screen state, a Start
interaction whose load fails leaves the whole session state (including
`student_name`) exactly as it was, still on the selection screen. -/
theorem failed_load_keeps_selecting (load : String → Except String (List Question))
    (p e : String) (ops : List Op)
    (hfail : load p = .error e) (hsel : (run load ops).quiz_path = none) :
    step load (.start p) (run load ops) = run load ops := by
  have hm := masterInv_foldl load ops (init_state, []) (masterInv_init load)
  have hf := foldl_stepG_fst load ops (init_state, [])
  have h6 := hm.2.2.2.2.2.1
  rw [hf] at h6
  exact start_fail_id load p e (run load ops) hfail hsel (h6 hsel)

/-- Witness for C6: a loader that always fails leaves the fresh selection
state untouched. -/
theorem failed_load_keeps_selecting_witness :
    step (fun _ => Except.error "boom") (.start "quiz")
        (run (fun _ => Except.error "boom") [])
      = run (fun _ => Except.error "boom") [] :=
  failed_load_keeps_selecting (fun _ => Except.error "boom") "quiz" "boom" [] rfl rfl


/-! ## Validator lemmas (C5) -/

theorem msLoop_ok_iff (name : String) (i : Nat) (c : Val) :
    ∀ ans : List Val, msLoop name i c ans = .ok () ↔ ans.all (fun idx => idxOk c idx) = true := by
  intro ans
  induction ans with
  | nil => simp [msLoop]
  | cons idx rest ih =>
    by_cases h1 : idx.isInt
    · by_cases h2 : idx.asInt < 0
      · have h3 : ¬(0 ≤ idx.asInt) := by omega
        simp [msLoop, h1, h2, idxOk, h3]
      · cases hp : pyLen c with
        | none => simp [msLoop, h1, h2, idxOk, hp]
        | some n =>
          by_cases h3 : (n : Int) ≤ idx.asInt
          · have h4 : ¬(idx.asInt < (n : Int)) := by omega
            simp [msLoop, h1, h2, hp, h3, idxOk, h4]
          · have h4 : idxOk c idx = true := by
              simp only [idxOk, h1, hp, Bool.true_and, Bool.and_eq_true, decide_eq_true_eq]
              omega
            simp [msLoop, h1, h2, hp, h3, h4, ih]
    · simp [msLoop, h1, idxOk]

theorem scCheck_ok_iff (name : String) (i : Nat) (q : Val) :
    scCheck name i q = .ok () ↔
      (match qget q "choices", qget q "answer" with
       | some c, some a => idxOk c a
       | _, _ => false) = true := by
  rcases hc : qget q "choices" with _ | c <;> rcases ha : qget q "answer" with _ | a
  · simp [scCheck, hc, ha]
  · simp [scCheck, hc, ha]
  · simp [scCheck, hc, ha]
  · by_cases h1 : a.isInt
    · by_cases h2 : a.asInt < 0
      · have h3 : ¬(0 ≤ a.asInt) := by omega
        simp [scCheck, hc, ha, h1, h2, idxOk, h3]
      · cases hp : pyLen c with
        | none => simp [scCheck, hc, ha, h1, h2, idxOk, hp]
        | some n =>
          by_cases h3 : (n : Int) ≤ a.asInt
          · have h4 : ¬(a.asInt < (n : Int)) := by omega
            simp [scCheck, hc, ha, h1, h2, hp, h3, idxOk, h4]
          · have h4 : idxOk c a = true := by
              simp only [idxOk, h1, hp, Bool.true_and, Bool.and_eq_true, decide_eq_true_eq]
              omega
            simp [scCheck, hc, ha, h1, h2, hp, h3, h4]
    · simp [scCheck, hc, ha, h1, idxOk]

theorem msCheck_ok_iff (name : String) (i : Nat) (q : Val) :
    msCheck name i q = .ok () ↔
      (match qget q "choices", qget q "answer" with
       | some c, some (.vlist ans) => ans.all (fun idx => idxOk c idx)
       | _, _ => false) = true := by
  rcases hc : qget q "choices" with _ | c <;> rcases ha : qget q "answer" with _ | a
  · simp [msCheck, hc, ha]
  · simp [msCheck, hc, ha]
  · simp [msCheck, hc, ha]
  · cases a with
    | vlist ans => simp [msCheck, hc, ha, msLoop_ok_iff]
    | vstr s => simp [msCheck, hc, ha]
    | vint n => simp [msCheck, hc, ha]
    | vbool b => simp [msCheck, hc, ha]
    | vdict kvs => simp [msCheck, hc, ha]

theorem tfCheck_ok_iff (name : String) (i : Nat) (q : Val) :
    tfCheck name i q = .ok () ↔
      (match qget q "answer" with
       | some a => a.isBool
       | none => false) = true := by
  rcases ha : qget q "answer" with _ | a
  · simp [tfCheck, ha]
  · by_cases hb : a.isBool <;> simp [tfCheck, ha, hb]

theorem saCheck_ok_iff (name : String) (i : Nat) (q : Val) :
    saCheck name i q = .ok () ↔
      (match qget q "answer_text" with
       | some (.vlist (a :: ats)) => true
       | _ => false) = true := by
  rcases ha : qget q "answer_text" with _ | a
  · simp [saCheck, ha]
  · cases a with
    | vlist ats =>
      cases ats with
      | nil => simp [saCheck, ha]
      | cons x xs => simp [saCheck, ha]
    | vstr s => simp [saCheck, ha]
    | vint n => simp [saCheck, ha]
    | vbool b => simp [saCheck, ha]
    | vdict kvs => simp [saCheck, ha]

theorem validateQDict_ok_iff (name : String) (i : Nat) (q : Val) :
    validateQDict name i q = .ok () ↔ questionOk q = true := by
  by_cases hid : qhas q "id"
  · by_cases hty : qhas q "type"
    · by_cases hpr : qhas q "prompt"
      · obtain ⟨t, ht⟩ := Option.isSome_iff_exists.mp hty
        by_cases t1 : t.eqStr "single_choice"
        · simp [validateQDict, questionOk, hid, hty, hpr, ht, t1, scCheck_ok_iff name i q]
        · by_cases t2 : t.eqStr "multi_select"
          · simp [validateQDict, questionOk, hid, hty, hpr, ht, t1, t2, msCheck_ok_iff name i q]
          · by_cases t3 : t.eqStr "true_false"
            · simp [validateQDict, questionOk, hid, hty, hpr, ht, t1, t2, t3,
                tfCheck_ok_iff name i q]
            · by_cases t4 : t.eqStr "short_answer"
              · simp [validateQDict, questionOk, hid, hty, hpr, ht, t1, t2, t3, t4,
                  saCheck_ok_iff name i q]
              · simp [validateQDict, questionOk, hid, hty, hpr, ht, t1, t2, t3, t4]
      · simp [validateQDict, questionOk, hid, hty, hpr]
    · simp [validateQDict, questionOk, hid, hty]
  · simp [validateQDict, questionOk, hid]

theorem msLoop_shape (name : String) (i : Nat) (c : Val) (hlen : (pyLen c).isSome) :
    ∀ ans : List Val, msLoop name i c ans = .ok () ∨
      ∃ m, msLoop name i c ans = .error (.valueError (qtag name i ++ m)) := by
  intro ans
  induction ans with
  | nil => exact Or.inl rfl
  | cons idx rest ih =>
    by_cases h1 : idx.isInt
    · by_cases h2 : idx.asInt < 0
      · refine Or.inr ⟨": multi-select index " ++ idx.pyStr ++ " out of range.", ?_⟩
        simp [msLoop, h1, h2, msIdxMsg, qtag, String.append_assoc]
      · obtain ⟨n, hp⟩ := Option.isSome_iff_exists.mp hlen
        by_cases h3 : (n : Int) ≤ idx.asInt
        · refine Or.inr ⟨": multi-select index " ++ idx.pyStr ++ " out of range.", ?_⟩
          simp [msLoop, h1, h2, hp, h3, msIdxMsg, qtag, String.append_assoc]
        · rcases ih with hok | ⟨m, hm⟩
          · exact Or.inl (by simp [msLoop, h1, h2, hp, h3, hok])
          · exact Or.inr ⟨m, by simp [msLoop, h1, h2, hp, h3, hm]⟩
    · refine Or.inr ⟨": multi-select index " ++ idx.pyStr ++ " out of range.", ?_⟩
      simp [msLoop, h1, msIdxMsg, qtag, String.append_assoc]

theorem validateQDict_shape (name : String) (i : Nat) (q : Val)
    (hsz : ∀ v, qget q "choices" = some v → (pyLen v).isSome) :
    validateQDict name i q = .ok () ∨
      ∃ m, validateQDict name i q = .error (.valueError (qtag name i ++ m)) := by
  by_cases hid : qhas q "id"
  · by_cases hty : qhas q "type"
    · by_cases hpr : qhas q "prompt"
      · obtain ⟨t, ht⟩ := Option.isSome_iff_exists.mp hty
        by_cases t1 : t.eqStr "single_choice"
        · -- single_choice: scCheck
          rcases hc : qget q "choices" with _ | c <;> rcases ha : qget q "answer" with _ | a
          · exact Or.inr ⟨" single_choice needs \x27choices\x27 + integer \x27answer\x27.",
              by simp [validateQDict, hid, hty, hpr, ht, t1, scCheck, hc, ha]⟩
          · exact Or.inr ⟨" single_choice needs \x27choices\x27 + integer \x27answer\x27.",
              by simp [validateQDict, hid, hty, hpr, ht, t1, scCheck, hc, ha]⟩
          · exact Or.inr ⟨" single_choice needs \x27choices\x27 + integer \x27answer\x27.",
              by simp [validateQDict, hid, hty, hpr, ht, t1, scCheck, hc, ha]⟩
          · by_cases h1 : a.isInt
            · by_cases h2 : a.asInt < 0
              · exact Or.inr ⟨": \x27answer\x27 index out of range.",
                  by simp [validateQDict, hid, hty, hpr, ht, t1, scCheck, hc, ha, h1, h2]⟩
              · obtain ⟨n, hp⟩ := Option.isSome_iff_exists.mp (hsz c hc)
                by_cases h3 : (n : Int) ≤ a.asInt
                · exact Or.inr ⟨": \x27answer\x27 index out of range.",
                    by simp [validateQDict, hid, hty, hpr, ht, t1, scCheck, hc, ha, h1, h2, hp, h3]⟩
                · exact Or.inl
                    (by simp [validateQDict, hid, hty, hpr, ht, t1, scCheck, hc, ha, h1, h2, hp, h3])
            · exact Or.inr ⟨" single_choice needs \x27choices\x27 + integer \x27answer\x27.",
                by simp [validateQDict, hid, hty, hpr, ht, t1, scCheck, hc, ha, h1]⟩
        · by_cases t2 : t.eqStr "multi_select"
          · rcases hc : qget q "choices" with _ | c <;> rcases ha : qget q "answer" with _ | a
            · exact Or.inr ⟨" multi_select needs \x27choices\x27 + list \x27answer\x27.",
                by simp [validateQDict, hid, hty, hpr, ht, t1, t2, msCheck, hc, ha]⟩
            · exact Or.inr ⟨" multi_select needs \x27choices\x27 + list \x27answer\x27.",
                by simp [validateQDict, hid, hty, hpr, ht, t1, t2, msCheck, hc, ha]⟩
            · exact Or.inr ⟨" multi_select needs \x27choices\x27 + list \x27answer\x27.",
                by simp [validateQDict, hid, hty, hpr, ht, t1, t2, msCheck, hc, ha]⟩
            · cases a with
              | vlist ans =>
                rcases msLoop_shape name i c (hsz c hc) ans with hok | ⟨m, hm⟩
                · exact Or.inl (by simp [validateQDict, hid, hty, hpr, ht, t1, t2, msCheck, hc, ha, hok])
                · exact Or.inr ⟨m, by simp [validateQDict, hid, hty, hpr, ht, t1, t2, msCheck, hc, ha, hm]⟩
              | vstr s =>
                exact Or.inr ⟨" multi_select needs \x27choices\x27 + list \x27answer\x27.",
                  by simp [validateQDict, hid, hty, hpr, ht, t1, t2, msCheck, hc, ha]⟩
              | vint n =>
                exact Or.inr ⟨" multi_select needs \x27choices\x27 + list \x27answer\x27.",
                  by simp [validateQDict, hid, hty, hpr, ht, t1, t2, msCheck, hc, ha]⟩
              | vbool b =>
                exact Or.inr ⟨" multi_select needs \x27choices\x27 + list \x27answer\x27.",
                  by simp [validateQDict, hid, hty, hpr, ht, t1, t2, msCheck, hc, ha]⟩
              | vdict kvs =>
                exact Or.inr ⟨" multi_select needs \x27choices\x27 + list \x27answer\x27.",
                  by simp [validateQDict, hid, hty, hpr, ht, t1, t2, msCheck, hc, ha]⟩
          · by_cases t3 : t.eqStr "true_false"
            · rcases ha : qget q "answer" with _ | a
              · exact Or.inr ⟨" true_false needs boolean \x27answer\x27.",
                  by simp [validateQDict, hid, hty, hpr, ht, t1, t2, t3, tfCheck, ha]⟩
              · by_cases hb : a.isBool
                · exact Or.inl (by simp [validateQDict, hid, hty, hpr, ht, t1, t2, t3, tfCheck, ha, hb])
                · exact Or.inr ⟨" true_false needs boolean \x27answer\x27.",
                    by simp [validateQDict, hid, hty, hpr, ht, t1, t2, t3, tfCheck, ha, hb]⟩
            · by_cases t4 : t.eqStr "short_answer"
              · rcases ha : qget q "answer_text" with _ | a
                · exact Or.inr ⟨" short_answer needs non-empty list \x27answer_text\x27.",
                    by simp [validateQDict, hid, hty, hpr, ht, t1, t2, t3, t4, saCheck, ha]⟩
                · cases a with
                  | vlist ats =>
                    cases ats with
                    | nil =>
                      exact Or.inr ⟨" short_answer needs non-empty list \x27answer_text\x27.",
                        by simp [validateQDict, hid, hty, hpr, ht, t1, t2, t3, t4, saCheck, ha]⟩
                    | cons x xs =>
                      exact Or.inl
                        (by simp [validateQDict, hid, hty, hpr, ht, t1, t2, t3, t4, saCheck, ha])
                  | vstr s =>
                    exact Or.inr ⟨" short_answer needs non-empty list \x27answer_text\x27.",
                      by simp [validateQDict, hid, hty, hpr, ht, t1, t2, t3, t4, saCheck, ha]⟩
                  | vint n =>
                    exact Or.inr ⟨" short_answer needs non-empty list \x27answer_text\x27.",
                      by simp [validateQDict, hid, hty, hpr, ht, t1, t2, t3, t4, saCheck, ha]⟩
                  | vbool b =>
                    exact Or.inr ⟨" short_answer needs non-empty list \x27answer_text\x27.",
                      by simp [validateQDict, hid, hty, hpr, ht, t1, t2, t3, t4, saCheck, ha]⟩
                  | vdict kvs =>
                    exact Or.inr ⟨" short_answer needs non-empty list \x27answer_text\x27.",
                      by simp [validateQDict, hid, hty, hpr, ht, t1, t2, t3, t4, saCheck, ha]⟩
              · exact Or.inr ⟨": unknown type \x27" ++ t.pyStr ++ "\x27.",
                  by simp [validateQDict, hid, hty, hpr, ht, t1, t2, t3, t4, String.append_assoc]⟩
      · exact Or.inr ⟨": missing \x27id\x27/\x27type\x27/\x27prompt\x27.",
          by simp [validateQDict, hid, hty, hpr]⟩
    · exact Or.inr ⟨": missing \x27id\x27/\x27type\x27/\x27prompt\x27.",
        by simp [validateQDict, hid, hty]⟩
  · exact Or.inr ⟨": missing \x27id\x27/\x27type\x27/\x27prompt\x27.",
      by simp [validateQDict, hid]⟩

theorem validateQ_on_dict (name : String) (i : Nat) (kvs : List (String × Val)) :
    validateQ name i (.vdict kvs) = validateQDict name i (.vdict kvs) := by
  by_cases hid : qhas (Val.vdict kvs) "id"
  · by_cases hty : qhas (Val.vdict kvs) "type"
    · by_cases hpr : qhas (Val.vdict kvs) "prompt"
      · rcases ht : qget (Val.vdict kvs) "type" with _ | t
        · exfalso
          simp [qhas, ht] at hty
        · simp [validateQ, validateQDict, qmem, qindex, hid, hty, hpr, ht]
      · simp [validateQ, validateQDict, qmem, qindex, hid, hty, hpr]
    · simp [validateQ, validateQDict, qmem, qindex, hid, hty]
  · simp [validateQ, validateQDict, qmem, qindex, hid]

theorem validateQ_ok_iff (name : String) (i : Nat) (q : Val) :
    validateQ name i q = .ok () ↔ questionOk q = true := by
  cases q with
  | vdict kvs =>
    rw [validateQ_on_dict]
    exact validateQDict_ok_iff name i (.vdict kvs)
  | vint n => simp [validateQ, qmem, questionOk, qhas, qget]
  | vbool b => simp [validateQ, qmem, questionOk, qhas, qget]
  | vstr s =>
    by_cases b1 : pyStrIn "id" s <;> by_cases b2 : pyStrIn "type" s <;>
      by_cases b3 : pyStrIn "prompt" s <;>
      simp [validateQ, qmem, qindex, questionOk, qhas, qget, b1, b2, b3]
  | vlist xs =>
    by_cases b1 : xs.any (fun v => v.eqStr "id") <;>
      by_cases b2 : xs.any (fun v => v.eqStr "type") <;>
      by_cases b3 : xs.any (fun v => v.eqStr "prompt") <;>
      simp [validateQ, qmem, qindex, questionOk, qhas, qget, b1, b2, b3]

theorem validateQ_err (name : String) (i : Nat) (q : Val)
    (hbad : questionOk q = false)
    (hdict : ∃ kvs, q = Val.vdict kvs)
    (hsz : ∀ v, qget q "choices" = some v → (pyLen v).isSome) :
    ∃ m, validateQ name i q = .error (.valueError (qtag name i ++ m)) := by
  obtain ⟨kvs, rfl⟩ := hdict
  rw [validateQ_on_dict]
  rcases validateQDict_shape name i (.vdict kvs) hsz with hok | he
  · exfalso
    have := (validateQDict_ok_iff name i (.vdict kvs)).mp hok
    rw [hbad] at this
    cases this
  · exact he

theorem validateQs_ok_iff (name : String) :
    ∀ (qs : List Val) (i : Nat),
      validateQs name i qs = .ok () ↔ ∀ q ∈ qs, questionOk q = true := by
  intro qs
  induction qs with
  | nil => intro i; simp [validateQs]
  | cons q rest ih =>
    intro i
    cases hv : validateQ name i q with
    | ok u =>
      cases u
      have hq := (validateQ_ok_iff name i q).mp hv
      simp [validateQs, hv, ih (i + 1), hq]
    | error e =>
      have hq : questionOk q = false := by
        rcases Bool.eq_false_or_eq_true (questionOk q) with hb | hb
        · exfalso
          have := (validateQ_ok_iff name i q).mpr hb
          rw [hv] at this
          cases this
        · exact hb
      constructor
      · intro hok
        rw [validateQs, hv] at hok
        cases hok
      · intro hall
        have := hall q (List.mem_cons_self q rest)
        rw [hq] at this
        cases this

theorem validateQs_first_err (name : String) (q : Val) (post : List Val)
    (hbad : questionOk q = false)
    (hdict : ∃ kvs, q = Val.vdict kvs)
    (hsz : ∀ v, qget q "choices" = some v → (pyLen v).isSome) :
    ∀ (pre : List Val) (i : Nat), (∀ x ∈ pre, questionOk x = true) →
      ∃ m, validateQs name i (pre ++ q :: post)
        = .error (.valueError (qtag name (i + pre.length) ++ m)) := by
  intro pre
  induction pre with
  | nil =>
    intro i hpre
    obtain ⟨m, hm⟩ := validateQ_err name i q hbad hdict hsz
    refine ⟨m, ?_⟩
    show validateQs name i (q :: post) = _
    simp [validateQs, hm]
  | cons x pre2 ih =>
    intro i hpre
    have hx : validateQ name i x = .ok () :=
      (validateQ_ok_iff name i x).mpr (hpre x (List.mem_cons_self x pre2))
    obtain ⟨m, hm⟩ := ih (i + 1) (fun y hy => hpre y (List.mem_cons_of_mem x hy))
    refine ⟨m, ?_⟩
    have harith : i + 1 + pre2.length = i + (x :: pre2).length := by
      simp [List.length_cons]
      omega
    rw [List.cons_append, validateQs, hx, ← harith]
    exact hm

/-- Claim C5: `validate_quiz_data` accepts a document exactly when every
question satisfies the §3 shape/range constraints (`questionOk`); a
missing or non-list `questions` field fails with the document-level
message; and on the first offending question (in document order, a
dict-shaped element whose `choices`, where consulted, is sized — a
non-dict element makes the source raise an untagged `TypeError` instead)
it fails fast with a `ValueError` whose message carries the 1-based
question index. -/
theorem validate_quiz_data_spec (name : String) (data : List (String × Val))
    (qs : List Val) (hq : List.lookup "questions" data = some (.vlist qs)) :
    (validate_quiz_data data name = .ok () ↔ ∀ x ∈ qs, questionOk x = true) ∧
    (∀ pre q post, qs = pre ++ q :: post → (∀ x ∈ pre, questionOk x = true) →
      questionOk q = false → (∃ kvs, q = Val.vdict kvs) →
      (∀ v, qget q "choices" = some v → (pyLen v).isSome) →
      ∃ m, validate_quiz_data data name
        = .error (.valueError (qtag name (pre.length + 1) ++ m))) ∧
    (∀ d2 : List (String × Val),
      (∀ v, List.lookup "questions" d2 = some v → v.isList = false) →
      validate_quiz_data d2 name
        = .error (.valueError (name ++ ": must contain a \x27questions\x27 list."))) := by
  refine ⟨?_, ?_, ?_⟩
  · rw [validate_quiz_data, hq]
    exact validateQs_ok_iff name qs 1
  · intro pre q post hsplit hpre hbad hdict hsz
    obtain ⟨m, hm⟩ := validateQs_first_err name q post hbad hdict hsz pre 1 hpre
    refine ⟨m, ?_⟩
    rw [validate_quiz_data, hq, hsplit]
    show validateQs name 1 (pre ++ q :: post) = _
    rw [hm, Nat.add_comm 1 pre.length]
  · intro d2 hd2
    rw [validate_quiz_data]
    cases hl : List.lookup "questions" d2 with
    | none => rfl
    | some v =>
      have := hd2 v hl
      cases v with
      | vlist xs => simp [Val.isList] at this
      | vstr s => rfl
      | vint n => rfl
      | vbool b => rfl
      | vdict kvs => rfl

/-- Witness for C5: a one-question valid document is accepted; appending
a question with an unknown type fails with a message tagged Q2; a
document without `questions` fails with the document-level message. -/
theorem validate_quiz_data_spec_witness :
    validate_quiz_data [("questions", Val.vlist [sampleGoodQ])] "quiz.json" = .ok () ∧
    (∃ m, validate_quiz_data [("questions", Val.vlist [sampleGoodQ, sampleBadQ])] "quiz.json"
      = .error (.valueError (qtag "quiz.json" 2 ++ m))) ∧
    validate_quiz_data [("meta", Val.vdict [])] "quiz.json"
      = .error (.valueError ("quiz.json" ++ ": must contain a \x27questions\x27 list.")) := by
  refine ⟨?_, ?_, ?_⟩
  · exact (validate_quiz_data_spec "quiz.json" [("questions", Val.vlist [sampleGoodQ])]
      [sampleGoodQ] rfl).1.mpr (by decide)
  · have h := (validate_quiz_data_spec "quiz.json"
      [("questions", Val.vlist [sampleGoodQ, sampleBadQ])] [sampleGoodQ, sampleBadQ] rfl).2.1
      [sampleGoodQ] sampleBadQ [] rfl (by decide) (by decide) ⟨_, rfl⟩
      (by intro v hv; exact Option.noConfusion hv)
    simpa using h
  · exact (validate_quiz_data_spec "quiz.json" [("questions", Val.vlist [sampleGoodQ])]
      [sampleGoodQ] rfl).2.2 [("meta", Val.vdict [])]
      (by intro v hv; exact Option.noConfusion hv)

end QuizApp
